import Mathlib

/-!
Verification of the Hive peer-to-peer membership engine.

Shallow embedding of the Python sources: `hive_node.py`, `hive_node_manager.py`,
`hive_receiver_service.py`, `hive_sender_client.py`,
`inbound_queue_command_processor.py`, `base_message.py` and the concrete
message classes, together with a model of the JSON wire codec
(`json.dumps` / `json.loads` restricted to the frame grammar this protocol
produces: objects whose values are strings, non-negative integers, or one
nested level of objects).

Mutable Python objects are modelled by explicit state passing: the node table
(`HiveNodeManager.hive_nodes`) is a `List HiveNode` in insertion order, and
in-place mutation of the record found by `get_node_by_ip_address_and_port`
becomes an update of the first matching list element.  Wall-clock instants
(`datetime.datetime.now()`) are abstracted as a `Nat` parameter `now`.
Python exceptions are modelled with `Except`.
-/

namespace Hive

/-- Node status strings used by `hive_node.py`: `"Live"` or `"Dead"`. -/
inductive NodeStatus where
  | live
  | dead
deriving DecidableEq, Repr

/-- The attributes `HiveNode.__init__` defines (`hive_node.py`, lines 38-59).
No other attribute is ever assigned to a `HiveNode` anywhere in the sources. -/
structure HiveNode where
  friendly_name : String
  ip_address : String
  port_number : Nat
  last_heartbeat_timestamp : Option Nat
  status : NodeStatus
  failed_connection_count : Nat
  is_local_node : Bool
deriving DecidableEq, Repr

/-- Source `HiveNode.__init__`: fresh nodes start Live, with no heartbeat and a zero
failure counter. -/
def HiveNode.init (friendly_name ip_address : String) (port_number : Nat)
    (is_local_node : Bool := false) : HiveNode :=
  { friendly_name := friendly_name
    ip_address := ip_address
    port_number := port_number
    last_heartbeat_timestamp := none
    status := .live
    failed_connection_count := 0
    is_local_node := is_local_node }

/-- Source `AppSettings.MAX_SEND_ATTEMPTS` (`app_settings.py`, line 34). -/
def MAX_SEND_ATTEMPTS : Nat := 3

/-- Source `HiveNode.node_is_dead`. -/
def HiveNode.nodeIsDead (n : HiveNode) : HiveNode :=
  { n with status := .dead }

/-- Source `HiveNode.node_is_alive`. -/
def HiveNode.nodeIsAlive (n : HiveNode) : HiveNode :=
  { n with status := .live }

/-- Source `HiveNode.set_last_heartbeat_timestamp`: set the timestamp to now, zero
the failure counter, then `node_is_alive`. -/
def HiveNode.setLastHeartbeatTimestamp (n : HiveNode) (now : Nat) : HiveNode :=
  HiveNode.nodeIsAlive
    { n with last_heartbeat_timestamp := some now, failed_connection_count := 0 }

/-- Source `HiveNode.increase_failed_connection_count`: increment the counter and go
Dead once it reaches `MAX_SEND_ATTEMPTS`. -/
def HiveNode.increaseFailedConnectionCount (n : HiveNode) : HiveNode :=
  let n' := { n with failed_connection_count := n.failed_connection_count + 1 }
  if n'.failed_connection_count ≥ MAX_SEND_ATTEMPTS then n'.nodeIsDead else n'

/-- Source `HiveNode.__eq__`: equality is on `(ip_address, port_number)` only. -/
def HiveNode.eqNode (a b : HiveNode) : Bool :=
  a.ip_address == b.ip_address && a.port_number == b.port_number

/-! ## Node table (`hive_node_manager.py`)

The table state is the list `hive_nodes` in insertion order. -/

/-- Source `HiveNodeManager.get_node_by_ip_address_and_port`: build a temporary node
and return the first list element equal to it (Python `==`, i.e. identity
match on ip and port). -/
def getNodeByIpAddressAndPort (t : List HiveNode) (ip : String) (port : Nat) :
    Option HiveNode :=
  let sourceNode := HiveNode.init "temp" ip port
  t.find? (fun n => n.eqNode sourceNode)

/-- In-place mutation of the first record matching `target`'s identity,
as performed on the object returned by `get_node_by_ip_address_and_port`. -/
def updateFirstMatch (t : List HiveNode) (target : HiveNode)
    (f : HiveNode → HiveNode) : List HiveNode :=
  match t with
  | [] => []
  | n :: rest =>
      if n.eqNode target then f n :: rest else n :: updateFirstMatch rest target f

/-- Source `HiveNodeManager.add_node`: if a record with the incoming identity exists,
overwrite its `friendly_name`; else append the new node.  The Python function
is annotated `-> None` and has no `return` statement, so its return value is
`None` on both paths; the second component records that return value. -/
def addNode (t : List HiveNode) (newNode : HiveNode) :
    List HiveNode × Option HiveNode :=
  match getNodeByIpAddressAndPort t newNode.ip_address newNode.port_number with
  | some _ =>
      (updateFirstMatch t newNode
        (fun e => { e with friendly_name := newNode.friendly_name }), none)
  | none => (t ++ [newNode], none)

/-- The state effect of `add_node` alone. -/
def addNodeState (t : List HiveNode) (newNode : HiveNode) : List HiveNode :=
  (addNode t newNode).1

/-! ## `HiveNodeManager.__init__` (`hive_node_manager.py`, lines 24-42)

`__init__` adds the local node, calls `load_config("hive_config.json")` and
then `status_check()`.  Python exceptions are modelled with `Except`. -/

/-- Python exceptions relevant to the constructor path. -/
inductive PyError where
  | attributeError
  | typeError
  | osError
deriving DecidableEq, Repr

/-- One entry of the `hive_config.json` configuration file, with the fields
`load_config` reads from it. -/
structure ConfigEntry where
  friendly_name : String
  ip_address : String
  port_number : Nat
  status : String
  services : List (String × String)
deriving Repr

/-- The five-positional-argument constructor call
`HiveNode(node_info["friendly_name"], node_info["ip_address"],
node_info["port_number"], node_info["status"], node_info["services"])` in
`load_config` (line 155).  `HiveNode.__init__` accepts at most four
parameters besides `self`, so this call raises `TypeError` unconditionally. -/
def hiveNodeInitFiveArgs (_friendlyName _ipAddress : String) (_portNumber : Nat)
    (_status : String) (_services : List (String × String)) :
    Except PyError HiveNode :=
  .error .typeError

/-- Source `HiveNodeManager.load_config`: the whole `for` loop over the parsed
entries sits inside a `try` whose `except Exception` only logs.  The first
iteration's constructor call raises `TypeError` (see `hiveNodeInitFiveArgs`),
aborting the loop, so the table is never modified; a missing or unreadable
file (`entries = none`) is likewise swallowed. -/
def loadConfig (t : List HiveNode) (entries : Option (List ConfigEntry)) :
    List HiveNode :=
  match entries with
  | none => t
  | some [] => t
  | some (e :: _) =>
      match hiveNodeInitFiveArgs e.friendly_name e.ip_address e.port_number
          e.status e.services with
      | .ok newNode => addNodeState t newNode
      | .error _ => t

/-- Source `HiveNodeManager.find_node_by_friendly_name`: first record whose
`friendly_name` equals the argument's. -/
def findNodeByFriendlyName (t : List HiveNode) (localNode : HiveNode) :
    Option HiveNode :=
  t.find? (fun n => n.friendly_name == localNode.friendly_name)

/-- The Python attribute access `hive.services` in `status_check` (line 176).
`HiveNode.__init__` defines only the seven attributes of the `HiveNode`
structure and no code path ever assigns a `services` attribute to a
`HiveNode`, so this access raises `AttributeError` on every node. -/
def HiveNode.getattrServices (_n : HiveNode) :
    Except PyError (List (String × String)) :=
  .error .attributeError

/-- Source `HiveNodeManager.status_check`: look the local node up by friendly name;
if found, read its `services` attribute (branching on it); if not found, only
log an error. -/
def statusCheck (t : List HiveNode) (localNode : HiveNode) :
    Except PyError Unit :=
  match findNodeByFriendlyName t localNode with
  | some hive => do
      let _services ← hive.getattrServices
      pure ()
  | none => pure ()

/-- Source `HiveNodeManager.__init__`: `add_node(local_node)`, then
`load_config("hive_config.json")`, then `status_check()`.  Returns the node
table the manager would hold, or the uncaught exception. -/
def hiveNodeManagerInit (localNode : HiveNode)
    (configEntries : Option (List ConfigEntry)) :
    Except PyError (List HiveNode) := do
  let t := addNodeState [] localNode
  let t := loadConfig t configEntries
  statusCheck t localNode
  pure t

/-! ## Inbound processor (`inbound_queue_command_processor.py`)

Each `process_command_*` method reads the sender identity out of the queued
message and mutates the shared node table; the table is passed explicitly. -/

/-- Source `InboundQueueCommandProcessor.process_command_connect`: build a fresh
`HiveNode` from the message's sender fields and `add_node` it. -/
def processCommandConnect (t : List HiveNode) (sender : HiveNode) :
    List HiveNode :=
  addNodeState t
    (HiveNode.init sender.friendly_name sender.ip_address sender.port_number)

/-- Source `InboundQueueCommandProcessor.process_command_heartbeat`: look the sender
up by `(ip, port)`; if found, `set_last_heartbeat_timestamp` on the found
record; otherwise build a fresh node, set its heartbeat and `add_node` it. -/
def processCommandHeartbeat (t : List HiveNode) (sender : HiveNode)
    (now : Nat) : List HiveNode :=
  match getNodeByIpAddressAndPort t sender.ip_address sender.port_number with
  | some _ =>
      updateFirstMatch t
        (HiveNode.init "temp" sender.ip_address sender.port_number)
        (fun n => n.setLastHeartbeatTimestamp now)
  | none =>
      let newHiveNode :=
        (HiveNode.init sender.friendly_name sender.ip_address
          sender.port_number).setLastHeartbeatTimestamp now
      addNodeState t newHiveNode

/-! ## Receiver service (`hive_receiver_service.py`)

`handle_client` decodes one JSON frame per `recv`, synthesizes a transient
sender node, routes by command, and then unconditionally writes one
acknowledgment back on the socket.  One iteration of that per-frame loop is
modelled below; the decoded dictionary's fields are the `DecodedFrame`. -/

/-- The fields `handle_client` and its command handlers read from the decoded
JSON dictionary.  `command` is `data_dict.get('command')` (absent key gives
`none`); `message` is read with `data_dict.get('message', 'Hello')` and
`nodes` with `data_dict.get('nodes', {})`, each entry already converted the
way `handle_gossip` converts it (`int(node_info['port_number'])`). -/
structure DecodedFrame where
  command : Option String
  source_friendly_name : String
  source_ip_address : String
  source_port : Nat
  message : Option String
  nodes : Option (List (String × String × Nat))
deriving Repr

/-- Source `HiveReceiverService.handle_gossip`: for each `(name, info)` entry of the
`nodes` payload, build a fresh node and `add_node` it unless its identity
equals the local node's (`new_node != local_node` is `HiveNode.__ne__`, the
negation of the identity equality). -/
def handleGossipNodes (t : List HiveNode) (localNode : HiveNode)
    (nodes : List (String × String × Nat)) : List HiveNode :=
  nodes.foldl
    (fun acc entry =>
      let newNode := HiveNode.init entry.1 entry.2.1 entry.2.2
      if !(newNode.eqNode localNode) then addNodeState acc newNode else acc)
    t

/-- A queued inbound message as enqueued by the receiver: the wrapped message
class, with `HiveMessage.send_attempt_count` starting at 0. -/
inductive InboundMsg where
  | connectMsg (sender recipient : HiveNode) (message : String)
  | heartbeatMsg (sender recipient : HiveNode)
deriving DecidableEq, Repr

/-- An acknowledgment frame written back on the socket:
`AckMessage(sender, recipient)`. -/
structure AckFrame where
  sender : HiveNode
  recipient : HiveNode
deriving DecidableEq, Repr

/-- The observable effects of one iteration of `handle_client`'s per-frame
loop: the node table afterwards, the messages enqueued onto the inbound
queue (in order), and the frames written back on the connection. -/
structure ReceiverStep where
  table : List HiveNode
  inbound : List InboundMsg
  written : List AckFrame
deriving Repr

/-- One iteration of `handle_client` (lines 80-123): decode, synthesize the
sender node, route by command (`handle_connect` / `handle_ack` /
`handle_heartbeat` / `handle_gossip`, unknown commands only log), then send
`AckMessage(local_node, sender_node)` unconditionally. -/
def handleClientFrame (t : List HiveNode) (localNode : HiveNode)
    (f : DecodedFrame) : ReceiverStep :=
  let senderNode :=
    HiveNode.init f.source_friendly_name f.source_ip_address f.source_port
  let routed : List HiveNode × List InboundMsg :=
    if f.command = some "connect" then
      (t, [.connectMsg senderNode localNode (f.message.getD "Hello")])
    else if f.command = some "ack_message" then
      (t, [])
    else if f.command = some "heartbeat" then
      (t, [.heartbeatMsg senderNode localNode])
    else if f.command = some "gossip" then
      (handleGossipNodes t localNode (f.nodes.getD []), [])
    else
      (t, [])
  { table := routed.1
    inbound := routed.2
    written := [{ sender := localNode, recipient := senderNode }] }

/-! ## Sender client (`hive_sender_client.py`)

`send_message` opens a connection to the queued message's recipient.  The
`try` block catches exactly `ConnectionRefusedError` and `AttributeError`;
any other socket error (timeout, network unreachable) propagates.  The
recipient object inside the queued message aliases the node-table record
with the recipient's identity (the protocol loops put table records into the
messages they build), so mutating it is modelled as updating the first table
record with that identity. -/

/-- A queued outbound message: recipient identity plus the
`HiveMessage.send_attempt_count` counter. -/
structure QueuedMessage where
  recipient_friendly_name : String
  recipient_ip_address : String
  recipient_port_number : Nat
  send_attempt_count : Nat
deriving DecidableEq, Repr

/-- How the connection attempt inside `send_message` ends. -/
inductive SendOutcome where
  | success
  | connectionRefused
  | attributeError
  | otherSocketError
deriving DecidableEq, Repr

/-- The observable effects of one `send_message` call: the node table
afterwards, the messages re-enqueued at the tail of the outbound queue, and
whether the give-up warning was logged. -/
structure SenderStep where
  table : List HiveNode
  requeued : List QueuedMessage
  warned : Bool
deriving DecidableEq, Repr

/-- Source `HiveSenderClient.send_message` (lines 52-81).  On success nothing is
mutated.  On `ConnectionRefusedError`: `send_attempt_count += 1`, then
`recipient.increase_failed_connection_count()`, then re-enqueue unless the
incremented attempt count reached `MAX_SEND_ATTEMPTS` (in which case only a
warning is logged).  On `AttributeError` (malformed recipient): only an
error is logged and the message is dropped.  Any other socket error is not
caught and propagates out of `send_message`. -/
def sendMessage (t : List HiveNode) (m : QueuedMessage)
    (outcome : SendOutcome) : Except PyError SenderStep :=
  match outcome with
  | .success => .ok { table := t, requeued := [], warned := false }
  | .connectionRefused =>
      let m' := { m with send_attempt_count := m.send_attempt_count + 1 }
      let t' := updateFirstMatch t
        (HiveNode.init m.recipient_friendly_name m.recipient_ip_address
          m.recipient_port_number)
        HiveNode.increaseFailedConnectionCount
      if m'.send_attempt_count ≥ MAX_SEND_ATTEMPTS then
        .ok { table := t', requeued := [], warned := true }
      else
        .ok { table := t', requeued := [m'], warned := false }
  | .attributeError => .ok { table := t, requeued := [], warned := false }
  | .otherSocketError => .error .osError

/-! ## Wire codec

`BaseMessage.to_json` is `json.dumps(self.to_dict())`; the receiver and
`HiveMessage.get_json_message_as_dict` decode with `json.loads`.  Both come
from the Python standard library, so they are modelled here, restricted to
the value grammar this protocol ever puts on the wire: JSON objects whose
values are strings, non-negative integers, or one nested level of objects
(the gossip `nodes` payload).  Python dictionaries preserve insertion order
and `json.dumps` serializes in that order with the default separators
`", "` and `": "`; strings made of printable ASCII other than `"` and `\`
are emitted verbatim (`ensure_ascii` escaping never fires on them), which is
the class of strings the round-trip below quantifies over. -/

/-- A leaf JSON value: a string or a non-negative integer. -/
inductive JVal0 where
  | js (s : String)
  | jn (n : Nat)
deriving DecidableEq, Repr

/-- A JSON value at nesting depth ≤ 1: additionally an object of leaves
(one `{ip_address, port_number}` entry of the gossip payload). -/
inductive JVal1 where
  | js (s : String)
  | jn (n : Nat)
  | jo (members : List (String × JVal0))
deriving DecidableEq, Repr

/-- A JSON value at nesting depth ≤ 2: additionally an object of depth-≤1
values (the whole gossip `nodes` payload). -/
inductive JVal2 where
  | js (s : String)
  | jn (n : Nat)
  | jo (members : List (String × JVal1))
deriving DecidableEq, Repr

/-- A decoded top-level frame: a JSON object in document order. -/
abbrev JDict := List (String × JVal2)

/-- The decimal digits of `n`, most significant first, as characters. -/
def natDigits (n : Nat) : List Char :=
  if n < 10 then [Nat.digitChar n]
  else natDigits (n / 10) ++ [Nat.digitChar (n % 10)]
decreasing_by exact Nat.div_lt_self (by omega) (by omega)

/-- Stdlib `json.dumps` on a string with no characters needing escapes: the verbatim
content between double quotes. -/
def dumpsString (s : String) : List Char :=
  '"' :: s.data ++ ['"']

/-- One `"key": value` member, generic in the value printer (`json.dumps`
uses the key-value separator `": "`). -/
def dumpsMemberG (pv : α → List Char) (m : String × α) : List Char :=
  dumpsString m.1 ++ ':' :: ' ' :: pv m.2

/-- A member list separated by `", "` (empty for the empty object). -/
def dumpsMembersG (pv : α → List Char) : List (String × α) → List Char
  | [] => []
  | [m] => dumpsMemberG pv m
  | m :: rest => dumpsMemberG pv m ++ ',' :: ' ' :: dumpsMembersG pv rest

/-- Stdlib `json.dumps` on an object, generic in the value printer. -/
def dumpsObjG (pv : α → List Char) (ms : List (String × α)) : List Char :=
  '{' :: dumpsMembersG pv ms ++ ['}']

/-- Stdlib `json.dumps` on a leaf value. -/
def dumpsVal0 : JVal0 → List Char
  | .js s => dumpsString s
  | .jn n => natDigits n

/-- Stdlib `json.dumps` on a depth-≤1 value. -/
def dumpsVal1 : JVal1 → List Char
  | .js s => dumpsString s
  | .jn n => natDigits n
  | .jo ms => dumpsObjG dumpsVal0 ms

/-- Stdlib `json.dumps` on a depth-≤2 value. -/
def dumpsVal2 : JVal2 → List Char
  | .js s => dumpsString s
  | .jn n => natDigits n
  | .jo ms => dumpsObjG dumpsVal1 ms

/-- Stdlib `json.dumps` on a top-level frame dictionary. -/
def dumps (d : JDict) : String :=
  String.mk (dumpsObjG dumpsVal2 d)

/-- Read string content up to the next `"` (JSON strings without escapes,
which is all `dumps` ever produces for the safe strings quantified over). -/
def takeUntilQuote : List Char → Option (List Char × List Char)
  | [] => none
  | c :: rest =>
      if c = '"' then some ([], rest)
      else (takeUntilQuote rest).map (fun p => (c :: p.1, p.2))

/-- Parse a JSON string literal. -/
def parseStringLit : List Char → Option (String × List Char)
  | c :: rest =>
      if c = '"' then (takeUntilQuote rest).map (fun p => (String.mk p.1, p.2))
      else none
  | [] => none

/-- Split off a maximal run of decimal digits. -/
def takeDigits : List Char → List Char × List Char
  | [] => ([], [])
  | c :: rest =>
      if c.isDigit then
        let p := takeDigits rest
        (c :: p.1, p.2)
      else ([], c :: rest)

/-- Parse a non-negative JSON integer. -/
def parseNatLit (cs : List Char) : Option (Nat × List Char) :=
  let p := takeDigits cs
  if p.1.isEmpty then none
  else some (p.1.foldl (fun a c => a * 10 + (c.toNat - 48)) 0, p.2)

/-- Parse one `"key": value` member, generic in the value parser. -/
def parseMemberG (pv : List Char → Option (α × List Char))
    (cs : List Char) : Option ((String × α) × List Char) := do
  let (k, r1) ← parseStringLit cs
  match r1 with
  | c1 :: c2 :: r2 =>
      if c1 = ':' then
        if c2 = ' ' then do
          let (v, r3) ← pv r2
          pure ((k, v), r3)
        else none
      else none
  | _ => none

/-- Parse a non-empty `", "`-separated member list, consuming the closing
`}`.  `fuel` bounds the number of members. -/
def parseMembersAuxG (pv : List Char → Option (α × List Char)) :
    Nat → List Char → Option (List (String × α) × List Char)
  | 0, _ => none
  | fuel + 1, cs => do
      let (m, r) ← parseMemberG pv cs
      match r with
      | [] => none
      | c :: r2 =>
          if c = ',' then
            match r2 with
            | [] => none
            | c2 :: r3 =>
                if c2 = ' ' then do
                  let (ms, r4) ← parseMembersAuxG pv fuel r3
                  pure (m :: ms, r4)
                else none
          else if c = '}' then some ([m], r2)
          else none

/-- Parse an object, `{` through `}`, generic in the value parser. -/
def parseObjG (pv : List Char → Option (α × List Char))
    (cs : List Char) : Option (List (String × α) × List Char) :=
  match cs with
  | [] => none
  | c :: rest =>
      if c = '{' then
        match rest with
        | [] => none
        | c2 :: rest2 =>
            if c2 = '}' then some ([], rest2)
            else parseMembersAuxG pv (rest.length + 1) rest
      else none

/-- Parse a leaf value. -/
def parseVal0 (cs : List Char) : Option (JVal0 × List Char) :=
  match cs with
  | [] => none
  | c :: _ =>
      if c = '"' then (parseStringLit cs).map (fun p => (.js p.1, p.2))
      else if c.isDigit then (parseNatLit cs).map (fun p => (.jn p.1, p.2))
      else none

/-- Parse a depth-≤1 value. -/
def parseVal1 (cs : List Char) : Option (JVal1 × List Char) :=
  match cs with
  | [] => none
  | c :: _ =>
      if c = '"' then (parseStringLit cs).map (fun p => (.js p.1, p.2))
      else if c.isDigit then (parseNatLit cs).map (fun p => (.jn p.1, p.2))
      else if c = '{' then (parseObjG parseVal0 cs).map (fun p => (.jo p.1, p.2))
      else none

/-- Parse a depth-≤2 value. -/
def parseVal2 (cs : List Char) : Option (JVal2 × List Char) :=
  match cs with
  | [] => none
  | c :: _ =>
      if c = '"' then (parseStringLit cs).map (fun p => (.js p.1, p.2))
      else if c.isDigit then (parseNatLit cs).map (fun p => (.jn p.1, p.2))
      else if c = '{' then (parseObjG parseVal1 cs).map (fun p => (.jo p.1, p.2))
      else none

/-- Stdlib `json.loads` on a frame: the whole input must be one JSON object. -/
def loads (s : String) : Option JDict :=
  match parseObjG parseVal2 s.data with
  | some (d, []) => some d
  | _ => none

/-- Decode a frame and re-encode the result: the round-trip the spec states
as `encode(decode(frame)) = frame`. -/
def encodeAfterDecode (frame : String) : Option String :=
  (loads frame).map dumps

/-! ### Message dictionaries (`base_message.py` and subclasses) -/

/-- Source `BaseMessage.to_dict` (lines 37-54): the seven envelope fields in
insertion order; ports are emitted as integers. -/
def baseToDict (sender recipient : HiveNode) (command : String) : JDict :=
  [("command", .js command),
   ("source_friendly_name", .js sender.friendly_name),
   ("source_ip_address", .js sender.ip_address),
   ("source_port", .jn sender.port_number),
   ("destination_friendly_name", .js recipient.friendly_name),
   ("destination_ip_address", .js recipient.ip_address),
   ("destination_port", .jn recipient.port_number)]

/-- Source `AckMessage`: the base envelope with command `'ack_message'`. -/
def ackToDict (sender recipient : HiveNode) : JDict :=
  baseToDict sender recipient "ack_message"

/-- Source `HeartbeatMessage.to_dict`: the base envelope with command
`'heartbeat'`. -/
def heartbeatToDict (sender recipient : HiveNode) : JDict :=
  baseToDict sender recipient "heartbeat"

/-- Source `ConnectMessage.to_dict`: the base envelope with command `'connect'`
plus the `message` field appended by `dict.update`. -/
def connectToDict (sender recipient : HiveNode) (message : String) : JDict :=
  baseToDict sender recipient "connect" ++ [("message", .js message)]

/-- The gossip `nodes` payload as built by
`GossipProtocolCommandManager.run`: `friendly_name` maps to an object with
`ip_address` and `port_number`, the port stringified by `str(...)`. -/
def gossipNodesPayload (nodes : List (String × String × Nat)) :
    List (String × JVal1) :=
  nodes.map fun entry =>
    (entry.1,
      JVal1.jo
        [("ip_address", JVal0.js entry.2.1),
         ("port_number", JVal0.js (String.mk (natDigits entry.2.2)))])

/-- Source `GossipMessage.to_dict`: the base envelope with command `'gossip'` plus
the `nodes` object appended by `dict.update`. -/
def gossipToDict (sender recipient : HiveNode)
    (nodes : List (String × String × Nat)) : JDict :=
  baseToDict sender recipient "gossip" ++
    [("nodes", .jo (gossipNodesPayload nodes))]

/-- Source `BaseMessage.to_json`: `json.dumps(self.to_dict())`. -/
def toJson (d : JDict) : String :=
  dumps d

/-! ### Safety: strings whose `json.dumps` form is the verbatim content -/

/-- Printable ASCII other than `"` and `\`: exactly the characters
`json.dumps` emits verbatim inside a string literal. -/
def jsonSafeChar (c : Char) : Bool :=
  c != '"' && c != '\\' && 32 ≤ c.toNat && c.toNat ≤ 126

/-- A string `json.dumps` emits verbatim. -/
def jsonSafe (s : String) : Bool :=
  s.data.all jsonSafeChar

/-- Safety of a leaf value. -/
def safeVal0 : JVal0 → Bool
  | .js s => jsonSafe s
  | .jn _ => true

/-- Safety of a member list, generic in the value safety predicate. -/
def safeMembersG (sv : α → Bool) (ms : List (String × α)) : Bool :=
  ms.all fun m => jsonSafe m.1 && sv m.2

/-- Safety of a depth-≤1 value. -/
def safeVal1 : JVal1 → Bool
  | .js s => jsonSafe s
  | .jn _ => true
  | .jo ms => safeMembersG safeVal0 ms

/-- Safety of a depth-≤2 value. -/
def safeVal2 : JVal2 → Bool
  | .js s => jsonSafe s
  | .jn _ => true
  | .jo ms => safeMembersG safeVal1 ms

/-- Safety of a frame dictionary. -/
def safeDict (d : JDict) : Bool :=
  safeMembersG safeVal2 d

/-- A node whose string fields are emitted verbatim by `json.dumps`. -/
def nodeJsonSafe (n : HiveNode) : Bool :=
  jsonSafe n.friendly_name && jsonSafe n.ip_address

/-- Input that may legally follow a serialized value inside an object: a
member separator or the closing brace. -/
def delimHead : List Char → Bool
  | c :: _ => c = ',' || c = '}'
  | [] => false

/-- Input that does not begin with a decimal digit. -/
def noDigitHead : List Char → Bool
  | c :: _ => !c.isDigit
  | [] => true

/-- Python `n == HiveNode(temp, ip, port)` is an identity match. -/
def identityMatches (n : HiveNode) (ip : String) (port : Nat) : Prop :=
  n.ip_address = ip ∧ n.port_number = port

instance (n : HiveNode) (ip : String) (port : Nat) :
    Decidable (identityMatches n ip port) := by
  unfold identityMatches; infer_instance

/-- The `(ip, port)` identities of a table, in order. -/
def identities (t : List HiveNode) : List (String × Nat) :=
  t.map fun n => (n.ip_address, n.port_number)

/-! ## Concrete instances used by counterexamples and witnesses -/

/-- A concrete local node. -/
def localNode0 : HiveNode := HiveNode.init "A" "127.0.0.1" 5000 true

/-- A concrete remote node already marked Dead after three failures. -/
def deadNodeB : HiveNode :=
  { friendly_name := "B"
    ip_address := "127.0.0.1"
    port_number := 5001
    last_heartbeat_timestamp := none
    status := .dead
    failed_connection_count := 3
    is_local_node := false }

/-- A concrete node table holding the local node and the dead peer. -/
def table0 : List HiveNode := [localNode0, deadNodeB]

/-- A queued outbound message addressed to the dead peer. -/
def msgB0 : QueuedMessage :=
  { recipient_friendly_name := "B"
    recipient_ip_address := "127.0.0.1"
    recipient_port_number := 5001
    send_attempt_count := 0 }

/-- A decoded `ack_message` frame from the dead peer. -/
def ackFrame0 : DecodedFrame :=
  { command := some "ack_message"
    source_friendly_name := "B"
    source_ip_address := "127.0.0.1"
    source_port := 5001
    message := none
    nodes := none }

/-- A decoded `gossip` frame from the dead peer mentioning a new node C. -/
def gossipFrame0 : DecodedFrame :=
  { command := some "gossip"
    source_friendly_name := "B"
    source_ip_address := "127.0.0.1"
    source_port := 5001
    message := none
    nodes := some [("C", "127.0.0.1", 5002)] }

/-! ## Helper lemmas: node-table operations -/

theorem eqNode_iff (n m : HiveNode) :
    n.eqNode m = true ↔ identityMatches n m.ip_address m.port_number := by
  simp [HiveNode.eqNode, identityMatches]

theorem eqNode_init_right (n : HiveNode) (name ip : String) (port : Nat) :
    n.eqNode (HiveNode.init name ip port) = true ↔ identityMatches n ip port := by
  simp [HiveNode.eqNode, HiveNode.init, identityMatches]

/-- Running `get_node_by_ip_address_and_port` on a table with no identity match. -/
theorem getNode_eq_none {t : List HiveNode} {ip : String} {port : Nat}
    (h : ∀ n ∈ t, ¬ identityMatches n ip port) :
    getNodeByIpAddressAndPort t ip port = none := by
  unfold getNodeByIpAddressAndPort
  refine List.find?_eq_none.mpr ?_
  intro n hn
  simpa [eqNode_init_right] using h n hn

/-- Lookup via `get_node_by_ip_address_and_port` returns the first identity match. -/
theorem getNode_eq_some {pre post : List HiveNode} {P : HiveNode}
    {ip : String} {port : Nat}
    (hpre : ∀ n ∈ pre, ¬ identityMatches n ip port)
    (hP : identityMatches P ip port) :
    getNodeByIpAddressAndPort (pre ++ P :: post) ip port = some P := by
  induction pre with
  | nil =>
      unfold getNodeByIpAddressAndPort
      simp [List.find?_cons, (eqNode_init_right P "temp" ip port).mpr hP]
  | cons n rest ih =>
      have hn : ¬ identityMatches n ip port := hpre n (by simp)
      have hrest : ∀ x ∈ rest, ¬ identityMatches x ip port := by
        intro x hx; exact hpre x (by simp [hx])
      have hbn : n.eqNode (HiveNode.init "temp" ip port) = false := by
        rcases hb : n.eqNode (HiveNode.init "temp" ip port) with _ | _
        · rfl
        · exact absurd ((eqNode_init_right n "temp" ip port).mp hb) hn
      unfold getNodeByIpAddressAndPort at ih ⊢
      simpa [List.find?_cons, hbn] using ih hrest

/-- Updating via `updateFirstMatch` rewrites exactly the first identity match. -/
theorem updateFirstMatch_decomp {pre post : List HiveNode} {P target : HiveNode}
    (f : HiveNode → HiveNode)
    (hpre : ∀ n ∈ pre,
      ¬ identityMatches n target.ip_address target.port_number)
    (hP : identityMatches P target.ip_address target.port_number) :
    updateFirstMatch (pre ++ P :: post) target f = pre ++ f P :: post := by
  induction pre with
  | nil =>
      simp [updateFirstMatch, (eqNode_iff P target).mpr hP]
  | cons n rest ih =>
      have hn := hpre n (by simp)
      have hbn : n.eqNode target = false := by
        rcases hb : n.eqNode target with _ | _
        · rfl
        · exact absurd ((eqNode_iff n target).mp hb) hn
      have hrest : ∀ x ∈ rest,
          ¬ identityMatches x target.ip_address target.port_number := by
        intro x hx; exact hpre x (by simp [hx])
      simp [updateFirstMatch, hbn, ih hrest]

/-- Updating via `updateFirstMatch` never changes the identity sequence when the update
function preserves ip and port. -/
theorem identities_updateFirstMatch {f : HiveNode → HiveNode}
    (hip : ∀ n, (f n).ip_address = n.ip_address)
    (hport : ∀ n, (f n).port_number = n.port_number)
    (t : List HiveNode) (target : HiveNode) :
    identities (updateFirstMatch t target f) = identities t := by
  induction t with
  | nil => rfl
  | cons n rest ih =>
      by_cases hb : n.eqNode target = true
      · simp [updateFirstMatch, hb, identities, hip, hport]
      · rw [Bool.not_eq_true] at hb
        simpa [updateFirstMatch, hb, identities] using ih

/-- Calling `add_node` on a table already holding the incoming identity: the first
matching record's `friendly_name` is overwritten and the return value is
`None`. -/
theorem addNode_existing {pre post : List HiveNode} {P N : HiveNode}
    (hpre : ∀ n ∈ pre, ¬ identityMatches n N.ip_address N.port_number)
    (hP : identityMatches P N.ip_address N.port_number) :
    addNode (pre ++ P :: post) N =
      (pre ++ { P with friendly_name := N.friendly_name } :: post, none) := by
  unfold addNode
  rw [getNode_eq_some hpre hP, updateFirstMatch_decomp _ hpre hP]

/-- Calling `add_node` on a table without the incoming identity: append. -/
theorem addNode_fresh {t : List HiveNode} {N : HiveNode}
    (h : ∀ n ∈ t, ¬ identityMatches n N.ip_address N.port_number) :
    addNode t N = (t ++ [N], none) := by
  unfold addNode
  rw [getNode_eq_none h]

/-- If some element of the table matches the target's identity, the updated
table holds a record with that identity (the updated first match keeps its
ip and port when `f` preserves them; here `f` only changes metadata). -/
theorem updateFirstMatch_mem_of_match {t : List HiveNode} {target : HiveNode}
    {f : HiveNode → HiveNode}
    (hip : ∀ n, (f n).ip_address = n.ip_address)
    (hport : ∀ n, (f n).port_number = n.port_number)
    (hex : ∃ m ∈ t, m.eqNode target = true) :
    ∃ n ∈ updateFirstMatch t target f,
      identityMatches n target.ip_address target.port_number := by
  induction t with
  | nil => simp at hex
  | cons n rest ih =>
      by_cases hb : n.eqNode target = true
      · refine ⟨f n, by simp [updateFirstMatch, hb], ?_⟩
        have := (eqNode_iff n target).mp hb
        exact ⟨by rw [hip]; exact this.1, by rw [hport]; exact this.2⟩
      · rw [Bool.not_eq_true] at hb
        have hex' : ∃ m ∈ rest, m.eqNode target = true := by
          rcases hex with ⟨m, hm, hmt⟩
          rcases List.mem_cons.mp hm with rfl | hm'
          · rw [hb] at hmt; cases hmt
          · exact ⟨m, hm', hmt⟩
        obtain ⟨x, hx, hxi⟩ := ih hex'
        exact ⟨x, by simp [updateFirstMatch, hb, hx], hxi⟩

/-- After `add_node`, the incoming identity is present. -/
theorem addNodeState_adds_identity (t : List HiveNode) (N : HiveNode) :
    ∃ n ∈ addNodeState t N, identityMatches n N.ip_address N.port_number := by
  unfold addNodeState addNode
  rcases hfind : getNodeByIpAddressAndPort t N.ip_address N.port_number with _ | e
  · exact ⟨N, by simp, rfl, rfl⟩
  · have hmem := List.mem_of_find?_eq_some hfind
    have hpred := List.find?_some hfind
    have hex : ∃ m ∈ t, m.eqNode N = true :=
      ⟨e, hmem,
        (eqNode_iff e N).mpr ((eqNode_init_right e "temp" _ _).mp hpred)⟩
    exact updateFirstMatch_mem_of_match (f := fun x =>
        { x with friendly_name := N.friendly_name })
      (fun _ => rfl) (fun _ => rfl) hex

/-- Calling `add_node` never loses an identity already in the table. -/
theorem addNodeState_keeps_identity {t : List HiveNode} {m : HiveNode}
    (hm : m ∈ t) (N : HiveNode) :
    ∃ n ∈ addNodeState t N,
      identityMatches n m.ip_address m.port_number := by
  unfold addNodeState addNode
  rcases hfind : getNodeByIpAddressAndPort t N.ip_address N.port_number with _ | e
  · exact ⟨m, by simp [hm], rfl, rfl⟩
  · simp only
    clear hfind
    induction t with
    | nil => cases hm
    | cons n rest ih =>
        by_cases hb : n.eqNode N = true
        · rcases List.mem_cons.mp hm with rfl | hm'
          · exact ⟨{ m with friendly_name := N.friendly_name },
              by simp [updateFirstMatch, hb], rfl, rfl⟩
          · exact ⟨m, by simp [updateFirstMatch, hb, hm'], rfl, rfl⟩
        · rw [Bool.not_eq_true] at hb
          rcases List.mem_cons.mp hm with rfl | hm'
          · exact ⟨m, by simp [updateFirstMatch, hb], rfl, rfl⟩
          · obtain ⟨x, hx, hxi⟩ := ih hm'
            exact ⟨x, by simp [updateFirstMatch, hb, hx], hxi⟩

/-- Incrementing the failure counter: the counter goes up by one; the record
goes Dead exactly when the incremented counter reaches the threshold. -/
theorem increaseFailedConnectionCount_spec (n : HiveNode) :
    (n.increaseFailedConnectionCount).failed_connection_count =
      n.failed_connection_count + 1 ∧
    (MAX_SEND_ATTEMPTS ≤ n.failed_connection_count + 1 →
      (n.increaseFailedConnectionCount).status = .dead) ∧
    (n.failed_connection_count + 1 < MAX_SEND_ATTEMPTS →
      (n.increaseFailedConnectionCount).status = n.status) := by
  unfold HiveNode.increaseFailedConnectionCount
  by_cases h : MAX_SEND_ATTEMPTS ≤ n.failed_connection_count + 1
  · simp [h, HiveNode.nodeIsDead]
  · simp [h, Nat.lt_of_not_le (by simpa using h)]

/-- A heartbeat for a sender already in the table rewrites the first record
with the sender's identity. -/
theorem heartbeat_found_decomp {pre post : List HiveNode} {sender : HiveNode}
    {now : Nat} {P : HiveNode}
    (hpre : ∀ n ∈ pre,
      ¬ identityMatches n sender.ip_address sender.port_number)
    (hP : identityMatches P sender.ip_address sender.port_number) :
    processCommandHeartbeat (pre ++ P :: post) sender now =
      pre ++ { P with last_heartbeat_timestamp := some now
                      failed_connection_count := 0
                      status := .live } :: post := by
  unfold processCommandHeartbeat
  rw [getNode_eq_some hpre hP]
  rw [updateFirstMatch_decomp (fun n => n.setLastHeartbeatTimestamp now)
    (by simpa [HiveNode.init] using hpre) (by simpa [HiveNode.init] using hP)]
  simp [HiveNode.setLastHeartbeatTimestamp, HiveNode.nodeIsAlive]

/-! ## Claims -/

/-- C4: for every local node record and every configuration-file content,
constructing a `HiveNodeManager` raises an uncaught `AttributeError`:
`__init__` always runs `status_check`, which finds the just-added local node
by friendly name and reads its undefined `services` attribute. -/
theorem manager_init_always_raises (localNode : HiveNode)
    (entries : Option (List ConfigEntry)) :
    hiveNodeManagerInit localNode entries = .error .attributeError := by
  have htable : addNodeState [] localNode = [localNode] := by
    simp [addNodeState, addNode, getNodeByIpAddressAndPort]
  have hload : loadConfig [localNode] entries = [localNode] := by
    rcases entries with _ | (_ | ⟨e, rest⟩) <;>
      simp [loadConfig, hiveNodeInitFiveArgs]
  have hstatus : statusCheck [localNode] localNode = .error .attributeError := by
    simp [statusCheck, findNodeByFriendlyName, List.find?_cons,
      HiveNode.getattrServices]
  simp [hiveNodeManagerInit, htable, hload, hstatus, Bind.bind, Except.bind]

/-- C6 (counterexample): `add_node` is annotated `-> None` and has no
`return` statement, so on a fresh insert its return value is `None`, not the
new record as the claim states. -/
theorem add_node_upsert_cex :
    (addNode [] localNode0).2 = none ∧
    (addNode [] localNode0).1 = [localNode0] ∧
    (addNode [] localNode0).2 ≠ some localNode0 := by
  refine ⟨rfl, rfl, by simp [addNode, getNodeByIpAddressAndPort]⟩

/-- C6 (amended): `add_node` never creates a duplicate identity: with an
existing `(ip, port)` record it only overwrites that record's
`friendly_name`, otherwise it appends the incoming node; uniqueness of
identities is preserved; the call returns `None` in both cases. -/
theorem add_node_upsert :
    (∀ (pre post : List HiveNode) (P N : HiveNode),
      (∀ n ∈ pre, ¬ identityMatches n N.ip_address N.port_number) →
      identityMatches P N.ip_address N.port_number →
      addNode (pre ++ P :: post) N =
        (pre ++ { P with friendly_name := N.friendly_name } :: post, none)) ∧
    (∀ (t : List HiveNode) (N : HiveNode),
      (∀ n ∈ t, ¬ identityMatches n N.ip_address N.port_number) →
      addNode t N = (t ++ [N], none)) ∧
    (∀ (t : List HiveNode) (N : HiveNode),
      (identities t).Nodup → (identities (addNodeState t N)).Nodup) := by
  refine ⟨fun pre post P N hpre hP => addNode_existing hpre hP,
    fun t N h => addNode_fresh h, fun t N hnodup => ?_⟩
  unfold addNodeState addNode
  rcases hfind : getNodeByIpAddressAndPort t N.ip_address N.port_number with _ | e
  · have hnone := List.find?_eq_none.mp hfind
    have hnotin : (N.ip_address, N.port_number) ∉ identities t := by
      intro hmem
      rcases List.mem_map.mp hmem with ⟨n, hn, hid⟩
      have hidm : identityMatches n N.ip_address N.port_number :=
        ⟨congrArg Prod.fst hid, congrArg Prod.snd hid⟩
      exact hnone n hn ((eqNode_init_right n "temp" _ _).mpr hidm)
    have hids : identities (t ++ [N]) =
        identities t ++ [(N.ip_address, N.port_number)] := by
      simp [identities]
    simp only [hids]
    refine List.Nodup.append hnodup (List.nodup_singleton _) ?_
    intro a ha ha2
    rw [List.mem_singleton] at ha2
    subst ha2
    exact hnotin ha
  · rw [identities_updateFirstMatch
      (f := fun e => { e with friendly_name := N.friendly_name })
      (fun _ => rfl) (fun _ => rfl) t N]
    exact hnodup

/-- C6 (witness): the amended behaviour at concrete inputs. -/
theorem add_node_upsert_witness :
    addNode [deadNodeB] (HiveNode.init "B2" "127.0.0.1" 5001) =
      ([{ deadNodeB with friendly_name := "B2" }], none) ∧
    addNode [] localNode0 = ([localNode0], none) ∧
    (identities (addNodeState [deadNodeB] localNode0)).Nodup := by
  refine ⟨?_, ?_, ?_⟩
  · simpa using add_node_upsert.1 [] [] deadNodeB
      (HiveNode.init "B2" "127.0.0.1" 5001) (by simp) ⟨rfl, rfl⟩
  · simpa using add_node_upsert.2.1 [] localNode0 (by simp)
  · exact add_node_upsert.2.2 [deadNodeB] localNode0 (by decide)

/-- C7: processing an inbound heartbeat: a sender already in the table gets
its `last_heartbeat_timestamp` set to now, its `failed_connection_count`
zeroed and its status set Live; an unknown sender is appended as a fresh
record with the heartbeat timestamp already set. -/
theorem heartbeat_processing :
    (∀ (pre post : List HiveNode) (sender : HiveNode) (now : Nat)
        (P : HiveNode),
      (∀ n ∈ pre, ¬ identityMatches n sender.ip_address sender.port_number) →
      identityMatches P sender.ip_address sender.port_number →
      processCommandHeartbeat (pre ++ P :: post) sender now =
        pre ++ { P with last_heartbeat_timestamp := some now
                        failed_connection_count := 0
                        status := .live } :: post) ∧
    (∀ (t : List HiveNode) (sender : HiveNode) (now : Nat),
      (∀ n ∈ t, ¬ identityMatches n sender.ip_address sender.port_number) →
      processCommandHeartbeat t sender now =
        t ++ [{ friendly_name := sender.friendly_name
                ip_address := sender.ip_address
                port_number := sender.port_number
                last_heartbeat_timestamp := some now
                status := .live
                failed_connection_count := 0
                is_local_node := false }]) := by
  constructor
  · intro pre post sender now P hpre hP
    exact heartbeat_found_decomp hpre hP
  · intro t sender now h
    unfold processCommandHeartbeat
    rw [getNode_eq_none h]
    have h' : ∀ n ∈ t, ¬ identityMatches n
        ((HiveNode.init sender.friendly_name sender.ip_address
          sender.port_number).setLastHeartbeatTimestamp now).ip_address
        ((HiveNode.init sender.friendly_name sender.ip_address
          sender.port_number).setLastHeartbeatTimestamp now).port_number := by
      simpa [HiveNode.init, HiveNode.setLastHeartbeatTimestamp,
        HiveNode.nodeIsAlive] using h
    rw [addNodeState, addNode_fresh h']
    simp [HiveNode.init, HiveNode.setLastHeartbeatTimestamp,
      HiveNode.nodeIsAlive]

/-- C7 (witness): a heartbeat from the dead peer B revives the concrete
table, and a heartbeat from an unknown node C appends a fresh record. -/
theorem heartbeat_processing_witness :
    processCommandHeartbeat table0 (HiveNode.init "B" "127.0.0.1" 5001) 42 =
      [localNode0,
       { deadNodeB with last_heartbeat_timestamp := some 42
                        failed_connection_count := 0
                        status := .live }] ∧
    processCommandHeartbeat [localNode0]
        (HiveNode.init "C" "127.0.0.1" 5002) 7 =
      [localNode0,
       { friendly_name := "C"
         ip_address := "127.0.0.1"
         port_number := 5002
         last_heartbeat_timestamp := some 7
         status := .live
         failed_connection_count := 0
         is_local_node := false }] := by
  constructor
  · simpa [table0] using heartbeat_processing.1 [localNode0] []
      (HiveNode.init "B" "127.0.0.1" 5001) 42 deadNodeB
      (by decide) (by exact ⟨rfl, rfl⟩)
  · exact heartbeat_processing.2 [localNode0]
      (HiveNode.init "C" "127.0.0.1" 5002) 7 (by decide)

/-- C8: incrementing the failure counter sets the record Dead exactly when
the incremented counter reaches `MAX_SEND_ATTEMPTS`, and leaves the status
alone below the threshold. -/
theorem failed_count_dead_transition (n : HiveNode) :
    (n.increaseFailedConnectionCount).failed_connection_count =
      n.failed_connection_count + 1 ∧
    (MAX_SEND_ATTEMPTS ≤ n.failed_connection_count + 1 →
      (n.increaseFailedConnectionCount).status = .dead) ∧
    (n.failed_connection_count + 1 < MAX_SEND_ATTEMPTS →
      (n.increaseFailedConnectionCount).status = n.status) :=
  increaseFailedConnectionCount_spec n

/-- C8 (witness): the transition at the threshold on a concrete record. -/
theorem failed_count_dead_transition_witness :
    ({ localNode0 with
        failed_connection_count := 2 }.increaseFailedConnectionCount).status
      = .dead ∧
    ({ localNode0 with
        failed_connection_count := 2
      }.increaseFailedConnectionCount).failed_connection_count = 3 ∧
    (localNode0.increaseFailedConnectionCount).status = localNode0.status := by
  refine ⟨(failed_count_dead_transition _).2.1 (by decide),
    (failed_count_dead_transition _).1,
    (failed_count_dead_transition localNode0).2.2 (by decide)⟩

/-- C10: when `add_node` hits an existing identity, the only change is that
record's `friendly_name`: the list decomposes into the same prefix and
suffix around the updated record, so membership, length and every identity
are unchanged, every other record is untouched, the matched record keeps all
fields but `friendly_name`, and the call returns `None`. -/
theorem add_node_existing_frame
    (pre post : List HiveNode) (P N : HiveNode)
    (hpre : ∀ n ∈ pre, ¬ identityMatches n N.ip_address N.port_number)
    (hP : identityMatches P N.ip_address N.port_number) :
    addNodeState (pre ++ P :: post) N =
      pre ++ { P with friendly_name := N.friendly_name } :: post ∧
    (addNodeState (pre ++ P :: post) N).length = (pre ++ P :: post).length ∧
    identities (addNodeState (pre ++ P :: post) N) =
      identities (pre ++ P :: post) ∧
    (addNode (pre ++ P :: post) N).2 = none := by
  have h : addNode (pre ++ P :: post) N =
      (pre ++ { P with friendly_name := N.friendly_name } :: post, none) :=
    addNode_existing hpre hP
  have h1 : addNodeState (pre ++ P :: post) N =
      pre ++ { P with friendly_name := N.friendly_name } :: post := by
    simp [addNodeState, h]
  refine ⟨h1, by simp [h1], by simp [h1, identities], by simp [h]⟩

/-- C10 (witness): updating the dead peer's name in the concrete table. -/
theorem add_node_existing_frame_witness :
    addNodeState table0 (HiveNode.init "B2" "127.0.0.1" 5001) =
      [localNode0, { deadNodeB with friendly_name := "B2" }] ∧
    (addNodeState table0 (HiveNode.init "B2" "127.0.0.1" 5001)).length = 2 := by
  have h := add_node_existing_frame [localNode0] [] deadNodeB
    (HiveNode.init "B2" "127.0.0.1" 5001) (by decide) (by exact ⟨rfl, rfl⟩)
  exact ⟨by simpa [table0] using h.1, by simpa [table0] using h.2.1⟩

/-! ### Gossip fold lemmas -/

/-- An identity already present survives every `add_node` a gossip frame
performs. -/
theorem handleGossipNodes_preserves_identity
    (nodes : List (String × String × Nat)) (t : List HiveNode)
    (localNode : HiveNode) {ip : String} {port : Nat}
    (h : ∃ n ∈ t, identityMatches n ip port) :
    ∃ n ∈ handleGossipNodes t localNode nodes, identityMatches n ip port := by
  induction nodes generalizing t with
  | nil => simpa [handleGossipNodes] using h
  | cons e rest ih =>
      unfold handleGossipNodes at ih ⊢
      rw [List.foldl_cons]
      by_cases hg : (HiveNode.init e.1 e.2.1 e.2.2).eqNode localNode = true
      · simpa [hg] using ih t h
      · rw [Bool.not_eq_true] at hg
        refine ih _ ?_
        simp only [hg, Bool.not_false, if_pos rfl]
        rcases h with ⟨n, hn, hni⟩
        obtain ⟨x, hx, hxi⟩ :=
          addNodeState_keeps_identity hn (HiveNode.init e.1 e.2.1 e.2.2)
        exact ⟨x, hx, by rwa [hni.1, hni.2] at hxi⟩

/-- Every non-local identity a gossip frame mentions is present afterwards. -/
theorem handleGossipNodes_covers
    (nodes : List (String × String × Nat)) (t : List HiveNode)
    (localNode : HiveNode) :
    ∀ entry ∈ nodes,
      ¬ (entry.2.1 = localNode.ip_address ∧
          entry.2.2 = localNode.port_number) →
      ∃ n ∈ handleGossipNodes t localNode nodes,
        identityMatches n entry.2.1 entry.2.2 := by
  induction nodes generalizing t with
  | nil => intro entry h; cases h
  | cons e rest ih =>
      intro entry hmem hnl
      unfold handleGossipNodes at ih ⊢
      rw [List.foldl_cons]
      rcases List.mem_cons.mp hmem with rfl | hmem'
      · have hg : (HiveNode.init entry.1 entry.2.1 entry.2.2).eqNode localNode
            = false := by
          rcases hb : (HiveNode.init entry.1 entry.2.1 entry.2.2).eqNode
              localNode with _ | _
          · rfl
          · exact absurd ((eqNode_iff _ localNode).mp hb)
              (by simpa [HiveNode.init, identityMatches] using hnl)
        simp only [hg, Bool.not_false, if_pos rfl]
        refine handleGossipNodes_preserves_identity rest _ localNode ?_
        simpa [HiveNode.init] using
          addNodeState_adds_identity t (HiveNode.init entry.1 entry.2.1 entry.2.2)
      · exact ih _ entry hmem' hnl

/-! ### Claims C1, C2, C3, C5 -/

/-- C1 (counterexample): a gossip mention of the dead peer B leaves the
concrete table completely unchanged — B stays Dead with
`failed_connection_count = 3`, where the claim demands Live and 0. -/
theorem inbound_evidence_liveness_cex :
    handleGossipNodes table0 localNode0 [("B", "127.0.0.1", 5001)] = table0 ∧
    deadNodeB ∈ table0 ∧
    deadNodeB.status = .dead ∧
    deadNodeB.failed_connection_count = 3 := by
  refine ⟨?_, by decide, rfl, rfl⟩
  decide

/-- C1 (amended): only a received heartbeat restores a known peer to Live
and zeroes its failure counter; a gossip mention and a connect go through
`add_node`, which only overwrites the record's `friendly_name`, leaving the
status and the counter (and every other field) untouched. -/
theorem inbound_evidence_liveness :
    (∀ (pre post : List HiveNode) (sender : HiveNode) (now : Nat)
        (P : HiveNode),
      (∀ n ∈ pre, ¬ identityMatches n sender.ip_address sender.port_number) →
      identityMatches P sender.ip_address sender.port_number →
      processCommandHeartbeat (pre ++ P :: post) sender now =
        pre ++ { P with last_heartbeat_timestamp := some now
                        failed_connection_count := 0
                        status := .live } :: post) ∧
    (∀ (pre post : List HiveNode) (localNode : HiveNode) (name ip : String)
        (port : Nat) (P : HiveNode),
      (∀ n ∈ pre, ¬ identityMatches n ip port) →
      identityMatches P ip port →
      ¬ (ip = localNode.ip_address ∧ port = localNode.port_number) →
      handleGossipNodes (pre ++ P :: post) localNode [(name, ip, port)] =
        pre ++ { P with friendly_name := name } :: post) ∧
    (∀ (pre post : List HiveNode) (sender : HiveNode) (P : HiveNode),
      (∀ n ∈ pre, ¬ identityMatches n sender.ip_address sender.port_number) →
      identityMatches P sender.ip_address sender.port_number →
      processCommandConnect (pre ++ P :: post) sender =
        pre ++ { P with friendly_name := sender.friendly_name } :: post) := by
  refine ⟨fun pre post sender now P hpre hP =>
    heartbeat_found_decomp hpre hP, ?_, ?_⟩
  · intro pre post localNode name ip port P hpre hP hnl
    have hg : (HiveNode.init name ip port).eqNode localNode = false := by
      rcases hb : (HiveNode.init name ip port).eqNode localNode with _ | _
      · rfl
      · exact absurd ((eqNode_iff _ localNode).mp hb)
          (by simpa [HiveNode.init, identityMatches] using hnl)
    rw [handleGossipNodes, List.foldl_cons]
    simp only [hg, Bool.not_false, if_pos rfl]
    rw [List.foldl_nil]
    have h : addNode (pre ++ P :: post) (HiveNode.init name ip port) =
        (pre ++ { P with friendly_name := name } :: post, none) :=
      addNode_existing (by simpa [HiveNode.init] using hpre)
        (by simpa [HiveNode.init] using hP)
    simp [addNodeState, h]
  · intro pre post sender P hpre hP
    unfold processCommandConnect
    have h : addNode (pre ++ P :: post)
          (HiveNode.init sender.friendly_name sender.ip_address
            sender.port_number) =
        (pre ++ { P with friendly_name := sender.friendly_name } :: post,
          none) :=
      addNode_existing (by simpa [HiveNode.init] using hpre)
        (by simpa [HiveNode.init] using hP)
    simp [addNodeState, h]

/-- C1 (witness): the three amended behaviours on the concrete table. -/
theorem inbound_evidence_liveness_witness :
    processCommandHeartbeat table0 (HiveNode.init "B" "127.0.0.1" 5001) 42 =
      [localNode0,
       { deadNodeB with last_heartbeat_timestamp := some 42
                        failed_connection_count := 0
                        status := .live }] ∧
    handleGossipNodes table0 localNode0 [("B2", "127.0.0.1", 5001)] =
      [localNode0, { deadNodeB with friendly_name := "B2" }] ∧
    processCommandConnect table0 (HiveNode.init "B2" "127.0.0.1" 5001) =
      [localNode0, { deadNodeB with friendly_name := "B2" }] := by
  refine ⟨?_, ?_, ?_⟩
  · simpa [table0] using inbound_evidence_liveness.1 [localNode0] []
      (HiveNode.init "B" "127.0.0.1" 5001) 42 deadNodeB (by decide)
      ⟨rfl, rfl⟩
  · simpa [table0] using inbound_evidence_liveness.2.1 [localNode0] []
      localNode0 "B2" "127.0.0.1" 5001 deadNodeB (by decide) ⟨rfl, rfl⟩
      (by decide)
  · simpa [table0] using inbound_evidence_liveness.2.2 [localNode0] []
      (HiveNode.init "B2" "127.0.0.1" 5001) deadNodeB (by decide) ⟨rfl, rfl⟩

/-- C2 (counterexample): the per-connection handler writes one acknowledgment
even for a received `ack_message` frame, so "exactly one ack iff the command
is not ack_message" is false on the concrete ack frame. -/
theorem receiver_ack_per_frame_cex :
    ¬ (((handleClientFrame table0 localNode0 ackFrame0).written.length = 1) ↔
        ackFrame0.command ≠ some "ack_message") ∧
    (handleClientFrame table0 localNode0 ackFrame0).written =
      [{ sender := localNode0,
         recipient := HiveNode.init "B" "127.0.0.1" 5001 }] := by
  constructor
  · intro h
    exact (h.mp (by decide)) rfl
  · decide

/-- C2 (amended): the handler answers every decoded frame — whatever its
command, `ack_message` and unknown commands included — with exactly one
`ack_message` frame from the local node to the synthesized sender; a
received `ack_message` is logged and discarded: nothing is enqueued and the
table is untouched, but the frame is still acknowledged. -/
theorem receiver_ack_per_frame (t : List HiveNode) (localNode : HiveNode)
    (f : DecodedFrame) :
    (handleClientFrame t localNode f).written =
      [{ sender := localNode,
         recipient := HiveNode.init f.source_friendly_name
           f.source_ip_address f.source_port }] ∧
    (f.command = some "ack_message" →
      (handleClientFrame t localNode f).inbound = [] ∧
      (handleClientFrame t localNode f).table = t) := by
  refine ⟨rfl, fun hcmd => ?_⟩
  simp [handleClientFrame, hcmd]

/-- C2 (witness): the amended behaviour on the concrete ack frame. -/
theorem receiver_ack_per_frame_witness :
    (handleClientFrame table0 localNode0 ackFrame0).written =
      [{ sender := localNode0,
         recipient := HiveNode.init "B" "127.0.0.1" 5001 }] ∧
    (handleClientFrame table0 localNode0 ackFrame0).inbound = [] ∧
    (handleClientFrame table0 localNode0 ackFrame0).table = table0 := by
  have h := receiver_ack_per_frame table0 localNode0 ackFrame0
  exact ⟨h.1, (h.2 rfl).1, (h.2 rfl).2⟩

/-- C3 (counterexample): on the concrete gossip frame the handler enqueues
nothing onto the inbound queue — the claim demands a gossip message there —
and instead mutates the node table itself. -/
theorem receiver_gossip_inline_cex :
    (handleClientFrame table0 localNode0 gossipFrame0).inbound = [] ∧
    (handleClientFrame table0 localNode0 gossipFrame0).table ≠ table0 := by
  constructor
  · rfl
  · decide

/-- C3 (amended): on a gossip frame the receiver enqueues nothing and applies
the membership effects itself: it folds `add_node` over the non-local
entries of the payload, after which every non-local mentioned identity is
present in the table. -/
theorem receiver_gossip_inline (t : List HiveNode) (localNode : HiveNode)
    (f : DecodedFrame) (hcmd : f.command = some "gossip") :
    (handleClientFrame t localNode f).inbound = [] ∧
    (handleClientFrame t localNode f).table =
      handleGossipNodes t localNode (f.nodes.getD []) ∧
    (∀ entry ∈ f.nodes.getD [],
      ¬ (entry.2.1 = localNode.ip_address ∧
          entry.2.2 = localNode.port_number) →
      ∃ n ∈ (handleClientFrame t localNode f).table,
        identityMatches n entry.2.1 entry.2.2) := by
  have htab : (handleClientFrame t localNode f).table =
      handleGossipNodes t localNode (f.nodes.getD []) := by
    simp [handleClientFrame, hcmd]
  refine ⟨by simp [handleClientFrame, hcmd], htab, fun entry hmem hnl => ?_⟩
  rw [htab]
  exact handleGossipNodes_covers (f.nodes.getD []) t localNode entry hmem hnl

/-- C3 (witness): the amended behaviour on the concrete gossip frame. -/
theorem receiver_gossip_inline_witness :
    (handleClientFrame table0 localNode0 gossipFrame0).inbound = [] ∧
    (handleClientFrame table0 localNode0 gossipFrame0).table =
      handleGossipNodes table0 localNode0 [("C", "127.0.0.1", 5002)] ∧
    ∃ n ∈ (handleClientFrame table0 localNode0 gossipFrame0).table,
      identityMatches n "127.0.0.1" 5002 := by
  have h := receiver_gossip_inline table0 localNode0 gossipFrame0 rfl
  exact ⟨h.1, h.2.1,
    h.2.2 ("C", "127.0.0.1", 5002) (by decide) (by decide)⟩

/-- C5 (counterexample): a malformed-recipient failure (`AttributeError`)
leaves the concrete table untouched — the dead peer's counter stays 3 — and
re-enqueues nothing, while the claim demands the counter incremented and the
message re-enqueued. -/
theorem sender_failure_policy_cex :
    sendMessage table0 msgB0 .attributeError =
      .ok { table := table0, requeued := [], warned := false } ∧
    sendMessage table0 msgB0 .attributeError ≠
      .ok { table := [localNode0,
              { deadNodeB with failed_connection_count := 4 }]
            requeued := [{ msgB0 with send_attempt_count := 1 }]
            warned := false } := by
  constructor
  · rfl
  · intro h
    have h2 : ({ table := table0, requeued := [], warned := false } :
          SenderStep) =
        { table := [localNode0,
            { deadNodeB with failed_connection_count := 4 }]
          requeued := [{ msgB0 with send_attempt_count := 1 }]
          warned := false } := Except.ok.inj h
    exact absurd h2 (by decide)

/-- C5 (amended): only a connection-refused failure triggers the retry
policy — recipient counter incremented (Dead at the threshold), attempt
counter incremented, re-enqueue below `MAX_SEND_ATTEMPTS` and a warned drop
at it; a malformed-recipient failure (`AttributeError`) drops the message
with no counter change, no re-enqueue and no warning; any other connection
failure (timeout, unreachable) is uncaught and propagates. -/
theorem sender_failure_policy (pre post : List HiveNode) (P : HiveNode)
    (m : QueuedMessage)
    (hpre : ∀ n ∈ pre,
      ¬ identityMatches n m.recipient_ip_address m.recipient_port_number)
    (hP : identityMatches P m.recipient_ip_address m.recipient_port_number) :
    (m.send_attempt_count + 1 < MAX_SEND_ATTEMPTS →
      sendMessage (pre ++ P :: post) m .connectionRefused =
        .ok { table := pre ++ P.increaseFailedConnectionCount :: post
              requeued :=
                [{ m with send_attempt_count := m.send_attempt_count + 1 }]
              warned := false }) ∧
    (MAX_SEND_ATTEMPTS ≤ m.send_attempt_count + 1 →
      sendMessage (pre ++ P :: post) m .connectionRefused =
        .ok { table := pre ++ P.increaseFailedConnectionCount :: post
              requeued := []
              warned := true }) ∧
    (MAX_SEND_ATTEMPTS ≤ P.failed_connection_count + 1 →
      P.increaseFailedConnectionCount.status = .dead) ∧
    sendMessage (pre ++ P :: post) m .attributeError =
      .ok { table := pre ++ P :: post, requeued := [], warned := false } ∧
    sendMessage (pre ++ P :: post) m .otherSocketError = .error .osError := by
  have htab : updateFirstMatch (pre ++ P :: post)
      (HiveNode.init m.recipient_friendly_name m.recipient_ip_address
        m.recipient_port_number) HiveNode.increaseFailedConnectionCount =
      pre ++ P.increaseFailedConnectionCount :: post :=
    updateFirstMatch_decomp HiveNode.increaseFailedConnectionCount
      (by simpa [HiveNode.init] using hpre)
      (by simpa [HiveNode.init] using hP)
  refine ⟨fun hlt => ?_, fun hge => ?_, fun hcnt => ?_, rfl, rfl⟩
  · simp [sendMessage, htab, Nat.not_le.mpr hlt]
  · simp [sendMessage, htab, hge]
  · exact (increaseFailedConnectionCount_spec P).2.1 hcnt

/-- C5 (witness): the amended behaviour on the concrete table and message. -/
theorem sender_failure_policy_witness :
    sendMessage table0 msgB0 .connectionRefused =
      .ok { table := [localNode0,
              { deadNodeB with failed_connection_count := 4 }]
            requeued := [{ msgB0 with send_attempt_count := 1 }]
            warned := false } ∧
    sendMessage table0 msgB0 .attributeError =
      .ok { table := table0, requeued := [], warned := false } ∧
    sendMessage table0 msgB0 .otherSocketError = .error .osError := by
  have h := sender_failure_policy [localNode0] [] deadNodeB msgB0
    (by decide) ⟨rfl, rfl⟩
  refine ⟨?_, ?_, ?_⟩
  · have h1 := h.1 (by decide)
    simpa [table0, HiveNode.increaseFailedConnectionCount, deadNodeB,
      MAX_SEND_ATTEMPTS, HiveNode.nodeIsDead] using h1
  · simpa [table0] using h.2.2.2.1
  · simpa [table0] using h.2.2.2.2

/-! ## Helper lemmas: wire codec round-trip -/

theorem jsonSafe_no_quote {s : String} (h : jsonSafe s = true) :
    ∀ c ∈ s.data, c ≠ '"' := by
  intro c hc
  unfold jsonSafe at h
  have hch := List.all_eq_true.mp h c hc
  simp only [jsonSafeChar, Bool.and_eq_true, bne_iff_ne] at hch
  exact hch.1.1.1

theorem takeUntilQuote_append (l rest : List Char) (h : ∀ c ∈ l, c ≠ '"') :
    takeUntilQuote (l ++ '"' :: rest) = some (l, rest) := by
  induction l with
  | nil => simp [takeUntilQuote]
  | cons c cs ih =>
      have hc : c ≠ '"' := h c (by simp)
      have hcs : ∀ x ∈ cs, x ≠ '"' := fun x hx => h x (by simp [hx])
      simp [takeUntilQuote, hc, ih hcs]

theorem parseStringLit_roundtrip (s : String) (rest : List Char)
    (h : jsonSafe s = true) :
    parseStringLit (dumpsString s ++ rest) = some (s, rest) := by
  have hshape : dumpsString s ++ rest = '"' :: (s.data ++ '"' :: rest) := by
    simp [dumpsString]
  have ht := takeUntilQuote_append s.data rest (jsonSafe_no_quote h)
  rw [hshape]
  simp [parseStringLit, ht]

theorem digitChar_isDigit {d : Nat} (h : d < 10) :
    (Nat.digitChar d).isDigit = true := by
  interval_cases d <;> decide

theorem digitChar_toNat {d : Nat} (h : d < 10) :
    (Nat.digitChar d).toNat = d + 48 := by
  interval_cases d <;> decide

theorem digitChar_jsonSafe {d : Nat} (h : d < 10) :
    jsonSafeChar (Nat.digitChar d) = true := by
  interval_cases d <;> decide

theorem isDigit_ne_quote {c : Char} (h : c.isDigit = true) : ¬ (c = '"') := by
  intro he
  subst he
  exact absurd h (by decide)

theorem isDigit_ne_brace {c : Char} (h : c.isDigit = true) : ¬ (c = '{') := by
  intro he
  subst he
  exact absurd h (by decide)

theorem natDigits_ne_nil (n : Nat) : natDigits n ≠ [] := by
  unfold natDigits
  by_cases h : n < 10 <;> simp [h]

theorem natDigits_all_digit (n : Nat) :
    ∀ c ∈ natDigits n, c.isDigit = true := by
  induction n using Nat.strong_induction_on with
  | _ n ih =>
      unfold natDigits
      by_cases h : n < 10
      · simpa [h] using digitChar_isDigit h
      · simp only [h, if_false]
        intro c hc
        rcases List.mem_append.mp hc with h1 | h2
        · exact ih (n / 10) (Nat.div_lt_self (by omega) (by omega)) c h1
        · have hc2 := List.mem_singleton.mp h2
          subst hc2
          exact digitChar_isDigit (Nat.mod_lt _ (by omega))

theorem natDigits_all_safe (n : Nat) :
    ∀ c ∈ natDigits n, jsonSafeChar c = true := by
  induction n using Nat.strong_induction_on with
  | _ n ih =>
      unfold natDigits
      by_cases h : n < 10
      · simpa [h] using digitChar_jsonSafe h
      · simp only [h, if_false]
        intro c hc
        rcases List.mem_append.mp hc with h1 | h2
        · exact ih (n / 10) (Nat.div_lt_self (by omega) (by omega)) c h1
        · have hc2 := List.mem_singleton.mp h2
          subst hc2
          exact digitChar_jsonSafe (Nat.mod_lt _ (by omega))

theorem jsonSafe_natDigits (n : Nat) :
    jsonSafe (String.mk (natDigits n)) = true := by
  unfold jsonSafe
  exact List.all_eq_true.mpr (natDigits_all_safe n)

theorem natDigits_foldl (n : Nat) : ∀ a : Nat,
    (natDigits n).foldl (fun a c => a * 10 + (c.toNat - 48)) a =
      a * 10 ^ (natDigits n).length + n := by
  induction n using Nat.strong_induction_on with
  | _ n ih =>
      intro a
      unfold natDigits
      by_cases h : n < 10
      · simp [h, digitChar_toNat h, pow_one]
      · simp only [h, if_false, List.foldl_append, List.foldl_cons,
          List.foldl_nil, List.length_append, List.length_cons,
          List.length_nil, Nat.zero_add]
        rw [ih (n / 10) (Nat.div_lt_self (by omega) (by omega)) a]
        rw [digitChar_toNat (Nat.mod_lt _ (by omega))]
        have hdm : n / 10 * 10 + n % 10 = n := by omega
        calc (a * 10 ^ (natDigits (n / 10)).length + n / 10) * 10 +
              (n % 10 + 48 - 48)
            = a * (10 ^ (natDigits (n / 10)).length * 10) +
              (n / 10 * 10 + n % 10) := by ring_nf; omega
          _ = a * 10 ^ ((natDigits (n / 10)).length + 1) + n := by
              rw [← pow_succ, hdm]

theorem noDigitHead_of_delim {rest : List Char} (h : delimHead rest = true) :
    noDigitHead rest = true := by
  cases rest with
  | nil => simp [delimHead] at h
  | cons c cs =>
      simp only [delimHead, Bool.or_eq_true, decide_eq_true_eq] at h
      rcases h with rfl | rfl <;> rfl

theorem takeDigits_append (l rest : List Char)
    (hl : ∀ c ∈ l, c.isDigit = true) (hrest : noDigitHead rest = true) :
    takeDigits (l ++ rest) = (l, rest) := by
  induction l with
  | nil =>
      simp only [List.nil_append]
      cases rest with
      | nil => rfl
      | cons c cs =>
          have hc : c.isDigit = false := by
            simpa [noDigitHead] using hrest
          simp [takeDigits, hc]
  | cons c cs ih =>
      have hc := hl c (by simp)
      simp [takeDigits, hc, ih (fun x hx => hl x (by simp [hx]))]

theorem parseNatLit_roundtrip (n : Nat) (rest : List Char)
    (hrest : noDigitHead rest = true) :
    parseNatLit (natDigits n ++ rest) = some (n, rest) := by
  unfold parseNatLit
  rw [takeDigits_append _ _ (natDigits_all_digit n) hrest]
  have hne : (natDigits n).isEmpty = false := by
    rcases hd : natDigits n with _ | ⟨d, ds⟩
    · exact absurd hd (natDigits_ne_nil n)
    · rfl
  simp only [hne, Bool.false_eq_true, if_false]
  rw [natDigits_foldl n 0]
  simp

theorem parseVal0_roundtrip (v : JVal0) (rest : List Char)
    (hv : safeVal0 v = true) (hrest : delimHead rest = true) :
    parseVal0 (dumpsVal0 v ++ rest) = some (v, rest) := by
  cases v with
  | js s =>
      have hshape : dumpsVal0 (.js s) ++ rest =
          '"' :: (s.data ++ '"' :: rest) := by
        simp [dumpsVal0, dumpsString]
      have hstr : parseStringLit ('"' :: (s.data ++ '"' :: rest)) =
          some (s, rest) := by
        have h2 : ('"' :: (s.data ++ '"' :: rest)) = dumpsString s ++ rest := by
          simp [dumpsString]
        rw [h2]
        exact parseStringLit_roundtrip s rest hv
      rw [hshape]
      simp [parseVal0, hstr]
  | jn n =>
      rcases hd : natDigits n with _ | ⟨d, ds⟩
      · exact absurd hd (natDigits_ne_nil n)
      · have hdig : d.isDigit = true :=
          natDigits_all_digit n d (by rw [hd]; simp)
        have hshape : dumpsVal0 (.jn n) ++ rest = d :: (ds ++ rest) := by
          simp [dumpsVal0, hd]
        have hnat : parseNatLit (d :: (ds ++ rest)) = some (n, rest) := by
          have h2 : d :: (ds ++ rest) = natDigits n ++ rest := by simp [hd]
          rw [h2]
          exact parseNatLit_roundtrip n rest (noDigitHead_of_delim hrest)
        rw [hshape]
        simp [parseVal0, isDigit_ne_quote hdig, hdig, hnat]

theorem parseMemberG_roundtrip {α : Type}
    (pv : List Char → Option (α × List Char)) (printv : α → List Char)
    (sv : α → Bool)
    (hval : ∀ v rest, sv v = true → delimHead rest = true →
      pv (printv v ++ rest) = some (v, rest))
    (m : String × α) (rest : List Char) (hk : jsonSafe m.1 = true)
    (hv : sv m.2 = true) (hrest : delimHead rest = true) :
    parseMemberG pv (dumpsMemberG printv m ++ rest) = some (m, rest) := by
  have hshape : dumpsMemberG printv m ++ rest =
      dumpsString m.1 ++ (':' :: ' ' :: (printv m.2 ++ rest)) := by
    simp [dumpsMemberG]
  have hstr :=
    parseStringLit_roundtrip m.1 (':' :: ' ' :: (printv m.2 ++ rest)) hk
  have hv2 := hval m.2 rest hv hrest
  rw [hshape]
  simp [parseMemberG, hstr, hv2]

theorem parseMembersAuxG_roundtrip {α : Type}
    (pv : List Char → Option (α × List Char)) (printv : α → List Char)
    (sv : α → Bool)
    (hval : ∀ v rest, sv v = true → delimHead rest = true →
      pv (printv v ++ rest) = some (v, rest)) :
    ∀ (ms : List (String × α)) (fuel : Nat) (rest : List Char),
      ms ≠ [] → safeMembersG sv ms = true → ms.length ≤ fuel →
      parseMembersAuxG pv fuel (dumpsMembersG printv ms ++ '}' :: rest) =
        some (ms, rest) := by
  intro ms
  induction ms with
  | nil => intro fuel rest hne; exact absurd rfl hne
  | cons m ms' ih =>
      intro fuel rest _ hsafe hfuel
      have hsafe' := hsafe
      simp only [safeMembersG, List.all_cons, Bool.and_eq_true] at hsafe'
      obtain ⟨⟨hk, hv⟩, htail⟩ := hsafe'
      cases fuel with
      | zero => exact absurd hfuel (by simp)
      | succ f =>
          cases ms' with
          | nil =>
              have hshape : dumpsMembersG printv [m] ++ '}' :: rest =
                  dumpsMemberG printv m ++ '}' :: rest := by
                simp [dumpsMembersG]
              have hmem := parseMemberG_roundtrip pv printv sv hval m
                ('}' :: rest) hk hv (by simp [delimHead])
              rw [hshape]
              simp [parseMembersAuxG, hmem]
          | cons m2 ms'' =>
              have hshape :
                  dumpsMembersG printv (m :: m2 :: ms'') ++ '}' :: rest =
                  dumpsMemberG printv m ++
                    (',' :: ' ' ::
                      (dumpsMembersG printv (m2 :: ms'') ++ '}' :: rest)) := by
                simp [dumpsMembersG]
              have hmem := parseMemberG_roundtrip pv printv sv hval m
                (',' :: ' ' ::
                  (dumpsMembersG printv (m2 :: ms'') ++ '}' :: rest)) hk hv
                (by simp [delimHead])
              have hrec := ih f rest (by simp)
                (by simpa [safeMembersG] using htail)
                (by simp only [List.length_cons] at hfuel ⊢; omega)
              rw [hshape]
              simp [parseMembersAuxG, hmem, hrec]

theorem dumpsMembersG_length {α : Type} (printv : α → List Char)
    (ms : List (String × α)) :
    ms.length ≤ (dumpsMembersG printv ms).length := by
  induction ms with
  | nil => simp [dumpsMembersG]
  | cons m rest ih =>
      cases rest with
      | nil =>
          simp [dumpsMembersG, dumpsMemberG, dumpsString]
      | cons m2 ms2 =>
          have ih' := ih
          simp only [dumpsMembersG, List.length_append, List.length_cons] at ih' ⊢
          omega

theorem dumpsMembersG_cons_head {α : Type} (printv : α → List Char)
    (m : String × α) (ms : List (String × α)) :
    ∃ l, dumpsMembersG printv (m :: ms) = '"' :: l := by
  cases ms with
  | nil =>
      refine ⟨m.1.data ++ ('"' :: ':' :: ' ' :: printv m.2), ?_⟩
      simp [dumpsMembersG, dumpsMemberG, dumpsString]
  | cons m2 ms2 =>
      refine ⟨m.1.data ++ ('"' :: ':' :: ' ' :: printv m.2) ++
        ',' :: ' ' :: dumpsMembersG printv (m2 :: ms2), ?_⟩
      simp [dumpsMembersG, dumpsMemberG, dumpsString]

theorem parseObjG_roundtrip {α : Type}
    (pv : List Char → Option (α × List Char)) (printv : α → List Char)
    (sv : α → Bool)
    (hval : ∀ v rest, sv v = true → delimHead rest = true →
      pv (printv v ++ rest) = some (v, rest))
    (ms : List (String × α)) (rest : List Char)
    (hms : safeMembersG sv ms = true) :
    parseObjG pv (dumpsObjG printv ms ++ rest) = some (ms, rest) := by
  cases ms with
  | nil =>
      have hshape : dumpsObjG printv ([] : List (String × α)) ++ rest =
          '{' :: '}' :: rest := by
        simp [dumpsObjG, dumpsMembersG]
      rw [hshape]
      simp [parseObjG]
  | cons m ms' =>
      obtain ⟨l, hl⟩ := dumpsMembersG_cons_head printv m ms'
      have hshape : dumpsObjG printv (m :: ms') ++ rest =
          '{' :: ('"' :: (l ++ '}' :: rest)) := by
        simp [dumpsObjG, hl]
      have harg : ('"' :: (l ++ '}' :: rest)) =
          dumpsMembersG printv (m :: ms') ++ '}' :: rest := by
        simp [hl]
      have hrec : parseMembersAuxG pv (('"' :: (l ++ '}' :: rest)).length + 1)
          ('"' :: (l ++ '}' :: rest)) = some (m :: ms', rest) := by
        rw [harg]
        refine parseMembersAuxG_roundtrip pv printv sv hval (m :: ms') _ rest
          (by simp) hms ?_
        have h2 := dumpsMembersG_length printv (m :: ms')
        simp only [List.length_append, List.length_cons] at h2 ⊢
        omega
      rw [hshape]
      simp [parseObjG]
      simpa using hrec

theorem parseVal1_roundtrip (v : JVal1) (rest : List Char)
    (hv : safeVal1 v = true) (hrest : delimHead rest = true) :
    parseVal1 (dumpsVal1 v ++ rest) = some (v, rest) := by
  cases v with
  | js s =>
      have hshape : dumpsVal1 (.js s) ++ rest =
          '"' :: (s.data ++ '"' :: rest) := by
        simp [dumpsVal1, dumpsString]
      have hstr : parseStringLit ('"' :: (s.data ++ '"' :: rest)) =
          some (s, rest) := by
        have h2 : ('"' :: (s.data ++ '"' :: rest)) = dumpsString s ++ rest := by
          simp [dumpsString]
        rw [h2]
        exact parseStringLit_roundtrip s rest hv
      rw [hshape]
      simp [parseVal1, hstr]
  | jn n =>
      rcases hd : natDigits n with _ | ⟨d, ds⟩
      · exact absurd hd (natDigits_ne_nil n)
      · have hdig : d.isDigit = true :=
          natDigits_all_digit n d (by rw [hd]; simp)
        have hshape : dumpsVal1 (.jn n) ++ rest = d :: (ds ++ rest) := by
          simp [dumpsVal1, hd]
        have hnat : parseNatLit (d :: (ds ++ rest)) = some (n, rest) := by
          have h2 : d :: (ds ++ rest) = natDigits n ++ rest := by simp [hd]
          rw [h2]
          exact parseNatLit_roundtrip n rest (noDigitHead_of_delim hrest)
        rw [hshape]
        simp [parseVal1, isDigit_ne_quote hdig, hdig, hnat]
  | jo ms =>
      have hshape : dumpsVal1 (.jo ms) ++ rest =
          '{' :: (dumpsMembersG dumpsVal0 ms ++ '}' :: rest) := by
        simp [dumpsVal1, dumpsObjG]
      have hobj : parseObjG parseVal0
          ('{' :: (dumpsMembersG dumpsVal0 ms ++ '}' :: rest)) =
          some (ms, rest) := by
        have h2 : ('{' :: (dumpsMembersG dumpsVal0 ms ++ '}' :: rest)) =
            dumpsObjG dumpsVal0 ms ++ rest := by
          simp [dumpsObjG]
        rw [h2]
        exact parseObjG_roundtrip parseVal0 dumpsVal0 safeVal0
          parseVal0_roundtrip ms rest (by simpa [safeVal1] using hv)
      rw [hshape]
      simp [parseVal1, hobj]

theorem parseVal2_roundtrip (v : JVal2) (rest : List Char)
    (hv : safeVal2 v = true) (hrest : delimHead rest = true) :
    parseVal2 (dumpsVal2 v ++ rest) = some (v, rest) := by
  cases v with
  | js s =>
      have hshape : dumpsVal2 (.js s) ++ rest =
          '"' :: (s.data ++ '"' :: rest) := by
        simp [dumpsVal2, dumpsString]
      have hstr : parseStringLit ('"' :: (s.data ++ '"' :: rest)) =
          some (s, rest) := by
        have h2 : ('"' :: (s.data ++ '"' :: rest)) = dumpsString s ++ rest := by
          simp [dumpsString]
        rw [h2]
        exact parseStringLit_roundtrip s rest hv
      rw [hshape]
      simp [parseVal2, hstr]
  | jn n =>
      rcases hd : natDigits n with _ | ⟨d, ds⟩
      · exact absurd hd (natDigits_ne_nil n)
      · have hdig : d.isDigit = true :=
          natDigits_all_digit n d (by rw [hd]; simp)
        have hshape : dumpsVal2 (.jn n) ++ rest = d :: (ds ++ rest) := by
          simp [dumpsVal2, hd]
        have hnat : parseNatLit (d :: (ds ++ rest)) = some (n, rest) := by
          have h2 : d :: (ds ++ rest) = natDigits n ++ rest := by simp [hd]
          rw [h2]
          exact parseNatLit_roundtrip n rest (noDigitHead_of_delim hrest)
        rw [hshape]
        simp [parseVal2, isDigit_ne_quote hdig, hdig, hnat]
  | jo ms =>
      have hshape : dumpsVal2 (.jo ms) ++ rest =
          '{' :: (dumpsMembersG dumpsVal1 ms ++ '}' :: rest) := by
        simp [dumpsVal2, dumpsObjG]
      have hobj : parseObjG parseVal1
          ('{' :: (dumpsMembersG dumpsVal1 ms ++ '}' :: rest)) =
          some (ms, rest) := by
        have h2 : ('{' :: (dumpsMembersG dumpsVal1 ms ++ '}' :: rest)) =
            dumpsObjG dumpsVal1 ms ++ rest := by
          simp [dumpsObjG]
        rw [h2]
        exact parseObjG_roundtrip parseVal1 dumpsVal1 safeVal1
          parseVal1_roundtrip ms rest (by simpa [safeVal2] using hv)
      rw [hshape]
      simp [parseVal2, hobj]

/-- Decoding a safely-encoded frame recovers the original dictionary. -/
theorem loads_dumps (d : JDict) (hd : safeDict d = true) :
    loads (dumps d) = some d := by
  have h := parseObjG_roundtrip parseVal2 dumpsVal2 safeVal2
    parseVal2_roundtrip d [] hd
  rw [List.append_nil] at h
  unfold loads dumps
  rw [show (String.mk (dumpsObjG dumpsVal2 d)).data =
    dumpsObjG dumpsVal2 d from rfl]
  rw [h]

/-- Decoding then re-encoding a safely-encoded frame is the identity. -/
theorem encode_decode_of_safe (d : JDict) (hd : safeDict d = true) :
    encodeAfterDecode (toJson d) = some (toJson d) := by
  unfold encodeAfterDecode toJson
  rw [loads_dumps d hd]
  rfl

theorem safeDict_append (d1 d2 : JDict) :
    safeDict (d1 ++ d2) = (safeDict d1 && safeDict d2) := by
  simp [safeDict, safeMembersG, List.all_append]

theorem safeDict_baseToDict (s r : HiveNode) (cmd : String)
    (hs : nodeJsonSafe s = true) (hr : nodeJsonSafe r = true)
    (hc : jsonSafe cmd = true) :
    safeDict (baseToDict s r cmd) = true := by
  simp only [nodeJsonSafe, Bool.and_eq_true] at hs hr
  simp [safeDict, safeMembersG, baseToDict, safeVal2, hs.1, hs.2, hr.1, hr.2,
    hc, (by decide : jsonSafe "command" = true),
    (by decide : jsonSafe "source_friendly_name" = true),
    (by decide : jsonSafe "source_ip_address" = true),
    (by decide : jsonSafe "source_port" = true),
    (by decide : jsonSafe "destination_friendly_name" = true),
    (by decide : jsonSafe "destination_ip_address" = true),
    (by decide : jsonSafe "destination_port" = true)]

theorem safe_gossip_payload (nodes : List (String × String × Nat))
    (hn : ∀ e ∈ nodes, jsonSafe e.1 = true ∧ jsonSafe e.2.1 = true) :
    safeMembersG safeVal1 (gossipNodesPayload nodes) = true := by
  unfold safeMembersG gossipNodesPayload
  refine List.all_eq_true.mpr ?_
  intro x hx
  rcases List.mem_map.mp hx with ⟨e, he, rfl⟩
  have hsafe := hn e he
  simp [safeVal1, safeMembersG, safeVal0, hsafe.1, hsafe.2, jsonSafe_natDigits,
    (by decide : jsonSafe "ip_address" = true),
    (by decide : jsonSafe "port_number" = true)]

/-- C9: for every well-formed frame of each command type — a frame produced
by the connect, ack, heartbeat or gossip message class from nodes and
payloads whose strings need no JSON escaping — decoding the frame with
`json.loads` and re-encoding the result with `json.dumps` reproduces the
frame exactly. -/
theorem frame_round_trip (sender recipient : HiveNode) (msg : String)
    (nodes : List (String × String × Nat))
    (hs : nodeJsonSafe sender = true) (hr : nodeJsonSafe recipient = true)
    (hm : jsonSafe msg = true)
    (hn : ∀ e ∈ nodes, jsonSafe e.1 = true ∧ jsonSafe e.2.1 = true) :
    encodeAfterDecode (toJson (connectToDict sender recipient msg)) =
      some (toJson (connectToDict sender recipient msg)) ∧
    encodeAfterDecode (toJson (ackToDict sender recipient)) =
      some (toJson (ackToDict sender recipient)) ∧
    encodeAfterDecode (toJson (heartbeatToDict sender recipient)) =
      some (toJson (heartbeatToDict sender recipient)) ∧
    encodeAfterDecode (toJson (gossipToDict sender recipient nodes)) =
      some (toJson (gossipToDict sender recipient nodes)) := by
  refine ⟨encode_decode_of_safe _ ?_, encode_decode_of_safe _ ?_,
    encode_decode_of_safe _ ?_, encode_decode_of_safe _ ?_⟩
  · rw [connectToDict, safeDict_append,
      safeDict_baseToDict sender recipient _ hs hr (by decide)]
    simp [safeDict, safeMembersG, safeVal2, hm,
      (by decide : jsonSafe "message" = true)]
  · exact safeDict_baseToDict sender recipient _ hs hr (by decide)
  · exact safeDict_baseToDict sender recipient _ hs hr (by decide)
  · rw [gossipToDict, safeDict_append,
      safeDict_baseToDict sender recipient _ hs hr (by decide)]
    have hp := safe_gossip_payload nodes hn
    simp only [safeMembersG] at hp
    simp [safeDict, safeMembersG, safeVal2,
      (by decide : jsonSafe "nodes" = true)]
    intro a b hab
    have hx := List.all_eq_true.mp hp (a, b) hab
    simpa [Bool.and_eq_true] using hx

/-- C9 (witness): the round-trip on a concrete frame of each command type. -/
theorem frame_round_trip_witness :
    encodeAfterDecode (toJson (connectToDict localNode0 deadNodeB "Hello")) =
      some (toJson (connectToDict localNode0 deadNodeB "Hello")) ∧
    encodeAfterDecode (toJson (ackToDict localNode0 deadNodeB)) =
      some (toJson (ackToDict localNode0 deadNodeB)) ∧
    encodeAfterDecode (toJson (heartbeatToDict localNode0 deadNodeB)) =
      some (toJson (heartbeatToDict localNode0 deadNodeB)) ∧
    encodeAfterDecode
        (toJson (gossipToDict localNode0 deadNodeB [("C", "10.0.0.7", 5002)])) =
      some
        (toJson (gossipToDict localNode0 deadNodeB [("C", "10.0.0.7", 5002)])) :=
  frame_round_trip localNode0 deadNodeB "Hello" [("C", "10.0.0.7", 5002)]
    (by decide) (by decide) (by decide) (by decide)

end Hive
